import Mathlib

/-!
Verification of the crazy-train randomized step-execution engine.

This file gives a shallow embedding of the library's core components and
proves properties of them:

* `Randomizer` (src/randomizer.rs): the seeded randomness facade.  The
  underlying `StdRng` generator is modelled abstractly: a `Randomizer`
  carries a raw 32-bit output stream `rng : Nat → Nat` together with a
  position, and `Randomizer.with_seed` is parameterised by the (pure)
  function `f` mapping a seed to its output stream, mirroring the fact
  that `StdRng::seed_from_u64` and `next_u32` are deterministic.  The
  `rand` crate's `gen_range` on a nonempty range is modelled by its
  contract, `lo + draw % size`, which yields a value in the range and
  consumes one draw.
* `StringDef` (src/generator.rs): the weighted random-string synthesizer.
  The Rust `while result.len() < length` loop tests the UTF-8 byte length
  of the accumulated string; the embedding tracks the byte length with
  `utf8Len` and totalises the loop with a fuel parameter (`d.length`
  units of fuel always suffice because every iteration appends a
  character of at least one byte; `generateLoop_fuel_irrel` proves the
  fuel choice irrelevant whenever it is sufficient).
* `Runner` / `Step` (src/runner.rs, src/step.rs, src/errors.rs,
  src/executer.rs): steps are records of capabilities, shell execution is
  an oracle `String → Except Error Output`, and `Runner.run` additionally
  returns the list of lifecycle events it performed so that ordering and
  counting properties can be stated.
-/

/-- Raw 32-bit generator state: the stream of `next_u32` outputs of the
underlying `StdRng` together with the current position, plus the recorded
seed (field `seed` of the Rust `Randomizer`). -/
structure Randomizer where
  rng : Nat → Nat
  pos : Nat
  seed : Nat

/-- Model of `Randomizer::with_seed`: `f` is the pure function taking a
seed to the 32-bit output stream of `StdRng::seed_from_u64`. -/
def Randomizer.with_seed (f : Nat → Nat → Nat) (s : Nat) : Randomizer :=
  { rng := f s, pos := 0, seed := s }

/-- One `next_u32` draw: the raw stream value truncated to 32 bits, and
the advanced state. -/
def Randomizer.next (r : Randomizer) : Nat × Randomizer :=
  (r.rng r.pos % 4294967296, { r with pos := r.pos + 1 })

/-- Model of `rand`'s `gen_range(lo..=hi)` (inclusive): one draw, mapped
into the range by `lo + draw % (hi + 1 - lo)`. -/
def Randomizer.genRangeIncl (r : Randomizer) (lo hi : Nat) : Nat × Randomizer :=
  let p := r.next
  (lo + p.1 % (hi + 1 - lo), p.2)

/-- Model of `rand`'s `gen_range(lo..hi)` (exclusive upper bound) on a
nonempty range. -/
def Randomizer.genRangeExcl (r : Randomizer) (lo hi : Nat) : Nat × Randomizer :=
  let p := r.next
  (lo + p.1 % (hi - lo), p.2)

/-- Model of `gen_range(0..len)` used for indexing: the empty range makes
`rand` panic, which the embedding surfaces as `none`. -/
def Randomizer.genIndex (r : Randomizer) (len : Nat) : Option (Nat × Randomizer) :=
  if len = 0 then none
  else
    let p := r.next
    some (p.1 % len, p.2)

/-- `Randomizer::number_between`: `min + (random_number % (max - min + 1))`. -/
def Randomizer.number_between (r : Randomizer) (min max : Nat) : Nat × Randomizer :=
  let p := r.next
  (min + p.1 % (max - min + 1), p.2)

/-- `Randomizer::bool`: parity of one raw draw. -/
def Randomizer.bool (r : Randomizer) : Bool × Randomizer :=
  let p := r.next
  (p.1 % 2 = 0, p.2)

/-- `Randomizer::path`: a length drawn from `5..=10`, then that many
lowercase letters. -/
def Randomizer.pathChars (r : Randomizer) : Nat → List Char × Randomizer
  | 0 => ([], r)
  | n + 1 =>
    let p := r.genRangeIncl 97 122
    let q := Randomizer.pathChars p.2 n
    (Char.ofNat p.1 :: q.1, q.2)

/-- `Randomizer::path`, returning the path name as a character list. -/
def Randomizer.path (r : Randomizer) : List Char × Randomizer :=
  let p := r.genRangeIncl 5 10
  Randomizer.pathChars p.2 p.1

/-- Swap the entries at positions `i` and `j` of a list (Rust
`slice::swap`, used by `SliceRandom::shuffle`). -/
def lswap {α : Type _} (l : List α) (i j : Nat) : List α :=
  match l[i]?, l[j]? with
  | some a, some b => (l.set i b).set j a
  | _, _ => l

/-- The Fisher-Yates loop of `SliceRandom::shuffle`: for `i` from
`len - 1` down to `1`, swap position `i` with a drawn position in
`0..=i`. -/
def fyLoop {α : Type _} : Nat → Randomizer → List α → List α × Randomizer
  | 0, r, l => (l, r)
  | i + 1, r, l =>
    let p := r.next
    fyLoop i p.2 (lswap l (i + 1) (p.1 % (i + 2)))

/-- `Randomizer::shuffle`: copies the input (`items.to_vec()`) and
shuffles the copy in place; the embedding's value passing reflects that
the original slice is left unmodified. -/
def Randomizer.shuffle {α : Type _} (r : Randomizer) (items : List α) : List α × Randomizer :=
  fyLoop (items.length - 1) r items

/-- The sampling loop of `Randomizer::pick_random`: draw `n` indices in
`0..items.len()` (with replacement), cloning the element at each; an
index draw on an empty slice is the `rand` panic, surfaced as `none`. -/
def pickLoop {α : Type _} (items : List α) : Nat → Randomizer → Option (List α × Randomizer)
  | 0, r => some ([], r)
  | n + 1, r =>
    match r.genIndex items.length with
    | none => none
    | some (ix, r1) =>
      match items[ix]? with
      | none => none
      | some x =>
        match pickLoop items n r1 with
        | none => none
        | some (rest, r2) => some (x :: rest, r2)

/-- `Randomizer::pick_random`: a count drawn from `1..=10`, then that
many independent samples from the input, with replacement. -/
def Randomizer.pick_random {α : Type _} (r : Randomizer) (items : List α) :
    Option (List α × Randomizer) :=
  let p := r.genRangeIncl 1 10
  pickLoop items p.1 p.2

/-- The criteria record for random string generation (`StringDef`). -/
structure StringDef where
  length : Nat
  include_unicode : Bool
  include_symbol : Bool
  include_capital_letters : Bool
  include_numbers : Bool
deriving DecidableEq

/-- The `Default` instance of `StringDef`: length 6, all toggles off. -/
def StringDef.default : StringDef :=
  { length := 6, include_unicode := false, include_symbol := false,
    include_capital_letters := false, include_numbers := false }

/-- The fixed symbol alphabet, the Rust raw string literal
`!\"#$%&'()*+,-./:;<=>?@[\]^_`(backtick)(lbrace)|(rbrace)~` of
src/generator.rs (a raw string, so both backslashes are literal
characters), given by code points. -/
def SYMBOLS : List Char :=
  [33, 92, 34, 35, 36, 37, 38, 39, 40, 41, 42, 43, 44, 45, 46, 47, 58, 59,
   60, 61, 62, 63, 64, 91, 92, 93, 94, 95, 96, 123, 124, 125, 126].map Char.ofNat

/-- Model of `std::char::from_u32`: succeeds exactly on Unicode scalar
values (not a surrogate, at most `0x10FFFF`). -/
def charFromU32 (n : Nat) : Option Char :=
  if h : n.isValidChar then some (Char.ofNatAux n h) else none

/-- UTF-8 byte length of a character list; `String::len` in Rust counts
bytes of the UTF-8 encoding. -/
def utf8Len (l : List Char) : Nat :=
  (l.map Char.utf8Size).sum

/-- The unicode branch of the `StringDef::generate` loop body, applied
to the result of the code-point draw: convert with `char::from_u32`,
pushing the placeholder `'?'` on failure.  The `Bool` component
instruments the translation: it is `true` exactly when the placeholder
was pushed. -/
def unicodeChar (p : Nat × Randomizer) : Char × Bool × Randomizer :=
  match charFromU32 p.1 with
  | some c => (c, false, p.2)
  | none => ('?', true, p.2)

/-- The symbol branch of the `StringDef::generate` loop body, applied to
the result of the index draw of `Iterator::choose` over `SYMBOLS`
(pushing `'#'` if choosing from the alphabet fails, which for the fixed
nonempty alphabet it cannot). -/
def symbolChar (p : Nat × Randomizer) : Char × Bool × Randomizer :=
  match SYMBOLS[p.1]? with
  | some c => (c, false, p.2)
  | none => ('#', false, p.2)

/-- One body iteration of `StringDef::generate` after the class selector
`choice` has been drawn: pick one character by the fixed priority order
of the four toggles with the lowercase catch-all. -/
def genChar (d : StringDef) (choice : Nat) (r : Randomizer) : Char × Bool × Randomizer :=
  if d.include_unicode ∧ choice < 20 then
    unicodeChar (r.genRangeExcl 0x1F600 0x1F64F)
  else if d.include_symbol ∧ choice < 40 then
    symbolChar (r.genRangeExcl 0 SYMBOLS.length)
  else if d.include_capital_letters ∧ choice < 60 then
    (Char.ofNat (r.genRangeIncl 65 90).1, false, (r.genRangeIncl 65 90).2)
  else if d.include_numbers ∧ choice < 80 then
    (Char.ofNat (r.genRangeIncl 48 57).1, false, (r.genRangeIncl 48 57).2)
  else
    (Char.ofNat (r.genRangeIncl 97 122).1, false, (r.genRangeIncl 97 122).2)

/-- The `while result.len() < length` loop of `StringDef::generate`,
totalised by fuel: when the fuel covers the number of bytes still
missing, the fuel-exhausted branch is unreachable (every iteration
appends at least one byte), see `generateLoop_fuel_irrel`. -/
def generateLoop (d : StringDef) : Nat → Randomizer → List Char → Bool → List Char × Bool × Randomizer
  | 0, r, acc, fb => (acc, fb, r)
  | fuel + 1, r, acc, fb =>
    if utf8Len acc < d.length then
      let p := r.genRangeExcl 0 100
      let q := genChar d p.1 p.2
      generateLoop d fuel q.2.2 (acc ++ [q.1]) (fb || q.2.1)
    else (acc, fb, r)

/-- `StringDef::generate` with the placeholder instrumentation flag. -/
def StringDef.generateI (d : StringDef) (r : Randomizer) : List Char × Bool × Randomizer :=
  generateLoop d d.length r [] false

/-- `StringDef::generate`: the generated character list and the advanced
generator state. -/
def StringDef.generate (d : StringDef) (r : Randomizer) : List Char × Randomizer :=
  let q := d.generateI r
  (q.1, q.2.2)

/-- Output of a shell command execution (src/executer.rs `Output`). -/
structure Output where
  status_code : Option Int
  stdout : String
  stderr : String
deriving DecidableEq

/-- Step kinds used for error classification (src/step.rs `Kind`). -/
inductive Kind where
  | Setup
  | Plan
  | Check
  | Test
deriving DecidableEq

/-- Errors of src/errors.rs.  The Rust `IO(std::io::Error)`,
`Utf8(Utf8Error)` and `Any(String)` payloads are modelled by their
messages. -/
inductive Error where
  | StepError (kind : Kind) (description : String) (command_output : Output)
  | ioError (msg : String)
  | utf8Error (msg : String)
  | anyError (msg : String)
deriving DecidableEq

/-- An execution plan produced by a step (src/step.rs `Plan`); the
context map is modelled as an association list. -/
structure Plan where
  id : String
  command : String
  ctx : Option (List (String × String))
deriving DecidableEq

/-- A step: the `StepTrait` capability record as the Runner of
src/runner.rs consumes it.  `plan` draws from the shared `Randomizer`
(explicit state passing); `is_success` receives the executed command's
`Output` and the planning-time context and may fail with a message
(`&'static str` in Rust). -/
structure Step where
  setup : Except Error Unit
  plan : Randomizer → Except Error (Plan × Randomizer)
  is_success : Output → Option (List (String × String)) → Except String Bool
  run_check : Option String
  run_test : Option String

/-- Lifecycle events recorded by the embedded Runner, indexed by step
position: a plan request, a setup call, a plan-command execution, a
judgment verdict, a check-command execution, a test-command execution. -/
inductive Event where
  | planReq (i : Nat)
  | setupEv (i : Nat)
  | execEv (i : Nat) (cmd : String)
  | judgeEv (i : Nat) (ok : Bool)
  | checkEv (i : Nat) (cmd : String)
  | testEv (i : Nat) (cmd : String)
deriving DecidableEq

/-- The check/test phase of `Runner::run`: when the optional command is
present, execute it through the shell oracle `ex`; any exit status other
than `Some(0)` is a fatal `StepError` of the given kind. -/
def cmdPhase (ex : String → Except Error Output) (mkEv : String → Event) (kind : Kind)
    (desc : String) (cmd? : Option String) : Except Error Unit × List Event :=
  match cmd? with
  | none => (.ok (), [])
  | some c =>
    match ex c with
    | .error e => (.error e, [mkEv c])
    | .ok out =>
      if out.status_code = some 0 then (.ok (), [mkEv c])
      else (.error (.StepError kind desc out), [mkEv c])

/-- The body of the `for step in &self.steps` loop of `Runner::run`
(src/runner.rs lines 92-150) for the step at position `i`: request a
plan (for its id and context), run setup, request a second plan and
execute its command, judge the result (an erring judgment is a fatal
`StepError` of kind `Plan` carrying the raw output; a `false` judgment
skips the remaining phases), then run the optional check and test
phases. -/
def runStep (ex : String → Except Error Output) (i : Nat) (s : Step) (r : Randomizer) :
    Except Error Unit × Randomizer × List Event :=
  match s.plan r with
  | .error e => (.error e, r, [.planReq i])
  | .ok (step_plan, r1) =>
    match s.setup with
    | .error e => (.error e, r1, [.planReq i, .setupEv i])
    | .ok _ =>
      match s.plan r1 with
      | .error e => (.error e, r1, [.planReq i, .setupEv i, .planReq i])
      | .ok (p2, r2) =>
        match ex p2.command with
        | .error e =>
          (.error e, r2, [.planReq i, .setupEv i, .planReq i, .execEv i p2.command])
        | .ok result =>
          match s.is_success result step_plan.ctx with
          | .error msg =>
            (.error (.StepError .Plan msg result), r2,
              [.planReq i, .setupEv i, .planReq i, .execEv i p2.command])
          | .ok false =>
            (.ok (), r2,
              [.planReq i, .setupEv i, .planReq i, .execEv i p2.command, .judgeEv i false])
          | .ok true =>
            let ch := cmdPhase ex (Event.checkEv i) .Check
              "check not finish with status code 0" s.run_check
            match ch.1 with
            | .error e =>
              (.error e, r2,
                [.planReq i, .setupEv i, .planReq i, .execEv i p2.command, .judgeEv i true]
                  ++ ch.2)
            | .ok _ =>
              let te := cmdPhase ex (Event.testEv i) .Test
                "test command not finish with status code 0" s.run_test
              (te.1, r2,
                [.planReq i, .setupEv i, .planReq i, .execEv i p2.command, .judgeEv i true]
                  ++ ch.2 ++ te.2)

/-- The step loop of `Runner::run`: steps execute in list order and the
first fatal error aborts the loop. -/
def runSteps (ex : String → Except Error Output) (i : Nat) (r : Randomizer) :
    List Step → Except Error Unit × Randomizer × List Event
  | [] => (.ok (), r, [])
  | s :: rest =>
    match runStep ex i s r with
    | (.error e, r1, tr) => (.error e, r1, tr)
    | (.ok _, r1, tr) =>
      let q := runSteps ex (i + 1) r1 rest
      (q.1, q.2.1, tr ++ q.2.2)

/-- The plan-requesting part of `Runner::dump_plan`: one plan request
per step, in order, stopping at the first planning error.  The textual
report assembly is display-only and not modelled. -/
def dumpPlan (ex : String → Except Error Output) (i : Nat) (r : Randomizer) :
    List Step → Except Error Randomizer × List Event
  | [] => (.ok r, [])
  | s :: rest =>
    match s.plan r with
    | .error e => (.error e, [.planReq i])
    | .ok (_, r1) =>
      let q := dumpPlan ex (i + 1) r1 rest
      (q.1, .planReq i :: q.2)

/-- `Runner::run`: emit the plan dump (requesting one plan per step),
then run the step loop; the final `Randomizer` state is dropped, the
outcome and the event trace are returned. -/
def runnerRun (ex : String → Except Error Output) (steps : List Step) (r : Randomizer) :
    Except Error Unit × List Event :=
  match dumpPlan ex 0 r steps with
  | (.error e, tr) => (.error e, tr)
  | (.ok r1, tr) =>
    let q := runSteps ex 0 r1 steps
    (q.1, tr ++ q.2.2)

/-- One draw operation of the `Randomizer` facade, for stating the
same-seed determinism invariant over arbitrary ordered sequences of
draws.  Sequence-valued draws operate on `Nat` payloads. -/
inductive DrawOp where
  | numBetween (min max : Nat)
  | coin
  | strGen (d : StringDef)
  | pathDraw
  | shuffleDraw (items : List Nat)
  | pickDraw (items : List Nat)
deriving DecidableEq

/-- The visible output of one draw operation. -/
inductive DrawOut where
  | num (n : Nat)
  | coin (b : Bool)
  | strOut (s : List Char)
  | pathOut (p : List Char)
  | seqOut (l : List Nat)
  | sampleOut (l : List Nat)
deriving DecidableEq

/-- Interpret one draw operation; `pick_random` on an empty payload is
the panic, surfaced as `none`. -/
def interpOp (r : Randomizer) : DrawOp → Option (DrawOut × Randomizer)
  | .numBetween lo hi =>
    let p := r.number_between lo hi
    some (.num p.1, p.2)
  | .coin =>
    let p := r.bool
    some (.coin p.1, p.2)
  | .strGen d =>
    let p := d.generate r
    some (.strOut p.1, p.2)
  | .pathDraw =>
    let p := r.path
    some (.pathOut p.1, p.2)
  | .shuffleDraw items =>
    let p := r.shuffle items
    some (.seqOut p.1, p.2)
  | .pickDraw items =>
    match r.pick_random items with
    | none => none
    | some (l, r1) => some (.sampleOut l, r1)

/-- Interpret an ordered sequence of draw operations, collecting the
output sequence. -/
def interpOps (r : Randomizer) : List DrawOp → Option (List DrawOut × Randomizer)
  | [] => some ([], r)
  | op :: ops =>
    match interpOp r op with
    | none => none
    | some (o, r1) =>
      match interpOps r1 ops with
      | none => none
      | some (os, r2) => some (o :: os, r2)


/-- A concrete generator state whose raw stream is constantly zero, used
to evaluate the embedding at explicit inputs. -/
def zeroRng : Randomizer :=
  { rng := fun _ => 0, pos := 0, seed := 0 }

/-- A concrete `StringDef` asking for length 2 with unicode enabled. -/
def cexStringDef : StringDef :=
  { length := 2, include_unicode := true, include_symbol := false,
    include_capital_letters := false, include_numbers := false }

/-- A command output with exit status 0. -/
def okOut : Output :=
  { status_code := some 0, stdout := "", stderr := "" }

/-- A command output with exit status 1. -/
def badOut : Output :=
  { status_code := some 1, stdout := "", stderr := "" }

/-- A shell oracle under which every command exits 0. -/
def exAllOk : String → Except Error Output :=
  fun _ => .ok okOut

/-- A shell oracle under which the command "badcheck" exits 1 and every
other command exits 0. -/
def exCheckFails : String → Except Error Output :=
  fun c => if c = "badcheck" then .ok badOut else .ok okOut

/-- A concrete step that plans the command "run", always judges success,
and supplies check and test commands. -/
def demoStep : Step :=
  { setup := .ok ()
    plan := fun r => .ok ({ id := "demo", command := "run", ctx := none }, r)
    is_success := fun _ _ => .ok true
    run_check := some "check"
    run_test := some "test" }

/-- A concrete step like `demoStep` whose check command is "badcheck". -/
def badCheckStep : Step :=
  { setup := .ok ()
    plan := fun r => .ok ({ id := "bad", command := "run", ctx := none }, r)
    is_success := fun _ _ => .ok true
    run_check := some "badcheck"
    run_test := some "test" }

/-- A concrete step whose success predicate returns an error message. -/
def judgeErrStep : Step :=
  { setup := .ok ()
    plan := fun r => .ok ({ id := "jerr", command := "run", ctx := none }, r)
    is_success := fun _ _ => .error "bad judgment"
    run_check := some "check"
    run_test := some "test" }

/-- A concrete step whose success predicate returns `false`. -/
def judgeFalseStep : Step :=
  { setup := .ok ()
    plan := fun r => .ok ({ id := "jfalse", command := "run", ctx := none }, r)
    is_success := fun _ _ => .ok false
    run_check := some "check"
    run_test := some "test" }
theorem lset_self {α : Type _} (l : List α) (i : Nat) (h : i < l.length) : l.set i l[i] = l := by
  apply List.ext_getElem
  · simp
  · intro n h1 h2
    rw [List.getElem_set]
    split
    · subst n; rfl
    · rfl

theorem lswap_perm {α : Type _} (l : List α) (i j : Nat) : (lswap l i j).Perm l := by
  classical
  unfold lswap
  cases hi : l[i]? with
  | none => exact List.Perm.refl l
  | some a =>
    cases hj : l[j]? with
    | none => exact List.Perm.refl l
    | some b =>
      have hil : i < l.length := by
        by_contra hc
        rw [List.getElem?_eq_none (Nat.le_of_not_lt hc)] at hi
        exact Option.noConfusion hi
      have hjl : j < l.length := by
        by_contra hc
        rw [List.getElem?_eq_none (Nat.le_of_not_lt hc)] at hj
        exact Option.noConfusion hj
      have ha : l[i] = a := by
        have h0 := List.getElem?_eq_getElem hil
        rw [hi] at h0
        exact (Option.some.inj h0).symm
      have hb : l[j] = b := by
        have h0 := List.getElem?_eq_getElem hjl
        rw [hj] at h0
        exact (Option.some.inj h0).symm
      show ((l.set i b).set j a).Perm l
      by_cases hij : i = j
      · subst hij
        have hab : a = b := by rw [← ha, ← hb]
        subst hab
        rw [List.set_set, ← ha, lset_self l i hil]
      · rw [List.perm_iff_count]
        intro x
        have hjl' : j < (l.set i b).length := by
          rw [List.length_set]; exact hjl
        rw [List.count_set a x (l.set i b) j hjl', List.count_set b x l i hil]
        have hseti : (l.set i b)[j] = l[j] := by
          rw [List.getElem_set hjl', if_neg hij]
        rw [hseti, ha, hb]
        have hcnta : a = x → 1 ≤ List.count x l := by
          intro hax
          subst hax
          exact List.count_pos_iff.mpr (ha ▸ List.getElem_mem hil)
        have hcntb : b = x → 1 ≤ List.count x l := by
          intro hbx
          subst hbx
          exact List.count_pos_iff.mpr (hb ▸ List.getElem_mem hjl)
        simp only [beq_iff_eq]
        by_cases hax : a = x <;> by_cases hbx : b = x
        · rw [if_pos hax, if_pos hbx]
          have h1 := hcnta hax
          omega
        · rw [if_pos hax, if_neg hbx]
          have h1 := hcnta hax
          omega
        · rw [if_neg hax, if_pos hbx]
          have h1 := hcntb hbx
          omega
        · rw [if_neg hax, if_neg hbx]
          omega

theorem fyLoop_perm {α : Type _} : ∀ (i : Nat) (r : Randomizer) (l : List α),
    (fyLoop i r l).1.Perm l := by
  intro i
  induction i with
  | zero => intro r l; exact List.Perm.refl l
  | succ i ih =>
    intro r l
    exact (ih _ _).trans (lswap_perm l (i + 1) _)

/-- Claim C8: `Randomizer::shuffle` returns a permutation of its input
(same length and multiset of elements); the input list itself is passed
by value and left untouched (the Rust code shuffles a fresh
`items.to_vec()` copy). -/
theorem shuffle_perm {α : Type _} (r : Randomizer) (items : List α) :
    (r.shuffle items).1.Perm items :=
  fyLoop_perm (items.length - 1) r items

theorem pickLoop_spec {α : Type _} (items : List α) (h : items ≠ []) :
    ∀ (n : Nat) (r : Randomizer), ∃ out r1,
      pickLoop items n r = some (out, r1) ∧ out.length = n ∧ ∀ x ∈ out, x ∈ items := by
  intro n
  induction n with
  | zero =>
    intro r
    exact ⟨[], r, rfl, rfl, by intro x hx; exact absurd hx (List.not_mem_nil x)⟩
  | succ n ih =>
    intro r
    have hlen : items.length ≠ 0 := by
      intro hc
      exact h (List.eq_nil_of_length_eq_zero hc)
    have hpos : 0 < items.length := Nat.pos_of_ne_zero hlen
    have hix : (r.next.1 % items.length) < items.length := Nat.mod_lt _ hpos
    obtain ⟨out, r1, heq, hlen', hmem⟩ := ih (r.next.2)
    refine ⟨items[r.next.1 % items.length] :: out, r1, ?_, ?_, ?_⟩
    · simp only [pickLoop, Randomizer.genIndex, if_neg hlen, List.getElem?_eq_getElem hix, heq]
    · simp [hlen']
    · intro x hx
      cases hx with
      | head => exact List.getElem_mem hix
      | tail _ hx => exact hmem x hx

/-- Claim C7: on a nonempty input, `Randomizer::pick_random` returns
between 1 and 10 elements inclusive, each an element of the input
(sampling with replacement). -/
theorem pick_random_spec {α : Type _} (r : Randomizer) (items : List α) (h : items ≠ []) :
    ∃ out r1, r.pick_random items = some (out, r1) ∧
      1 ≤ out.length ∧ out.length ≤ 10 ∧ ∀ x ∈ out, x ∈ items := by
  obtain ⟨out, r1, heq, hlen, hmem⟩ := pickLoop_spec items h (r.genRangeIncl 1 10).1 (r.genRangeIncl 1 10).2
  refine ⟨out, r1, heq, ?_, ?_, hmem⟩
  · have : 1 ≤ (r.genRangeIncl 1 10).1 := Nat.le_add_right 1 _
    omega
  · have : (r.genRangeIncl 1 10).1 ≤ 10 := by
      have hm : r.next.1 % 10 < 10 := Nat.mod_lt _ (by omega)
      simp only [Randomizer.genRangeIncl]
      omega
    omega

/-- Witness for `pick_random_spec` at a concrete state and input. -/
theorem pick_random_spec_witness :
    ([1, 2, 3] : List Nat) ≠ [] ∧
      (∃ out r1, (Randomizer.with_seed (fun _ n => n) 7).pick_random [1, 2, 3] = some (out, r1) ∧
        1 ≤ out.length ∧ out.length ≤ 10 ∧ ∀ x ∈ out, x ∈ [1, 2, 3]) :=
  ⟨by decide, pick_random_spec (Randomizer.with_seed (fun _ n => n) 7) [1, 2, 3] (by decide)⟩

/-- Claim C9: the index draw of `pick_random` on an empty slice is the
one failure branch, so the result is defined exactly on nonempty
inputs (the drawn count is always at least 1, so the index draw is
always reached). -/
theorem pick_random_isSome_iff {α : Type _} (r : Randomizer) (items : List α) :
    (r.pick_random items).isSome ↔ items ≠ [] := by
  constructor
  · intro hs hc
    subst hc
    have hcount : ∃ m, (r.genRangeIncl 1 10).1 = m + 1 := by
      exact ⟨r.next.1 % 10, by simp [Randomizer.genRangeIncl, Nat.add_comm]⟩
    obtain ⟨m, hm⟩ := hcount
    rw [Randomizer.pick_random, hm] at hs
    simp only [pickLoop, Randomizer.genIndex, List.length_nil, if_pos rfl] at hs
    exact Bool.noConfusion hs
  · intro h
    obtain ⟨out, r1, heq, _, _⟩ := pickLoop_spec items h (r.genRangeIncl 1 10).1 (r.genRangeIncl 1 10).2
    rw [Randomizer.pick_random, heq]
    rfl

/-- Claim C6: two `Randomizer` instances built by `with_seed` from the
same seed (of the same deterministic generator family `f`) produce
identical output sequences under any ordered sequence of draw
operations. -/
theorem with_seed_deterministic (f : Nat → Nat → Nat) (s : Nat) (ops : List DrawOp)
    (r1 r2 : Randomizer) (h1 : r1 = Randomizer.with_seed f s)
    (h2 : r2 = Randomizer.with_seed f s) :
    interpOps r1 ops = interpOps r2 ops := by
  subst h1
  subst h2
  rfl

/-- Witness for `with_seed_deterministic` at a concrete seed and op
sequence. -/
theorem with_seed_deterministic_witness :
    interpOps (Randomizer.with_seed (fun _ n => n) 42)
        [DrawOp.coin, DrawOp.numBetween 1 10, DrawOp.shuffleDraw [1, 2, 3]] =
      interpOps (Randomizer.with_seed (fun _ n => n) 42)
        [DrawOp.coin, DrawOp.numBetween 1 10, DrawOp.shuffleDraw [1, 2, 3]] :=
  with_seed_deterministic (fun _ n => n) 42 _ _ _ rfl rfl

theorem utf8Size_ofNat_small {n : Nat} (h : n < 128) : (Char.ofNat n).utf8Size = 1 := by
  have hv : n.isValidChar := Or.inl (by omega)
  simp only [Char.utf8Size, Char.ofNat, dif_pos hv, Char.ofNatAux]
  rw [if_pos]
  rw [UInt32.le_def, BitVec.le_def]
  simp [BitVec.ofNatLt, UInt32.ofNatCore]
  omega

theorem utf8Size_ofNat_big {n : Nat} (hlo : 0x10000 ≤ n) (hhi : n < 0x110000) :
    (Char.ofNat n).utf8Size = 4 := by
  have hv : n.isValidChar := Or.inr (And.intro (by omega) hhi)
  simp only [Char.utf8Size, Char.ofNat, dif_pos hv, Char.ofNatAux]
  rw [if_neg, if_neg, if_neg]
  all_goals rw [UInt32.le_def, BitVec.le_def]
  all_goals simp [BitVec.ofNatLt, UInt32.ofNatCore]
  all_goals omega

theorem utf8Len_append (l : List Char) (c : Char) :
    utf8Len (l ++ [c]) = utf8Len l + c.utf8Size := by
  simp [utf8Len]

theorem charFromU32_emoji (u : Nat) :
    charFromU32 (0x1F600 + u % (0x1F64F - 0x1F600)) =
      some (Char.ofNat (0x1F600 + u % (0x1F64F - 0x1F600))) := by
  have hm : u % (0x1F64F - 0x1F600) < 0x1F64F - 0x1F600 := Nat.mod_lt _ (by omega)
  have hv : (0x1F600 + u % (0x1F64F - 0x1F600)).isValidChar :=
    Or.inr (And.intro (by omega) (by omega))
  rw [charFromU32, dif_pos hv]
  simp [Char.ofNat, dif_pos hv]

theorem genRangeExcl_eq (r : Randomizer) (lo hi : Nat) :
    r.genRangeExcl lo hi = (lo + r.next.1 % (hi - lo), r.next.2) := rfl

theorem genRangeIncl_eq (r : Randomizer) (lo hi : Nat) :
    r.genRangeIncl lo hi = (lo + r.next.1 % (hi + 1 - lo), r.next.2) := rfl

theorem symbolChar_flag (p : Nat × Randomizer) : (symbolChar p).2.1 = false := by
  unfold symbolChar
  cases SYMBOLS[p.1]? <;> rfl

theorem genChar_no_fallback (d : StringDef) (choice : Nat) (r : Randomizer) :
    (genChar d choice r).2.1 = false := by
  unfold genChar
  split
  · rw [genRangeExcl_eq, unicodeChar]
    rw [show (0x1F600 + r.next.1 % (0x1F64F - 0x1F600), r.next.2).1 =
      0x1F600 + r.next.1 % (0x1F64F - 0x1F600) from rfl]
    rw [charFromU32_emoji]
  · split
    · exact symbolChar_flag _
    · split
      · rfl
      · split <;> rfl

theorem genChar_utf8Size_le (d : StringDef) (choice : Nat) (r : Randomizer) :
    (genChar d choice r).1.utf8Size ≤ 4 :=
  Char.utf8Size_le_four _

theorem symbols_utf8Size : ∀ c ∈ SYMBOLS, c.utf8Size = 1 := by decide

theorem symbolChar_utf8Size (p : Nat × Randomizer) : (symbolChar p).1.utf8Size = 1 := by
  unfold symbolChar
  cases hs : SYMBOLS[p.1]? with
  | none =>
    show ('#').utf8Size = 1
    decide
  | some c =>
    have hlt : p.1 < SYMBOLS.length := by
      by_contra hcon
      rw [List.getElem?_eq_none (Nat.le_of_not_lt hcon)] at hs
      exact Option.noConfusion hs
    have h0 := List.getElem?_eq_getElem hlt
    rw [hs] at h0
    exact symbols_utf8Size c ((Option.some.inj h0) ▸ List.getElem_mem hlt)

theorem genChar_ascii (d : StringDef) (choice : Nat) (r : Randomizer)
    (hu : d.include_unicode = false) : (genChar d choice r).1.utf8Size = 1 := by
  unfold genChar
  split
  · rename_i hguard
    rw [hu] at hguard
    exact absurd hguard.1 (by simp)
  · split
    · exact symbolChar_utf8Size _
    · split
      · rw [show (r.genRangeIncl 65 90).1 = 65 + r.next.1 % 26 from rfl]
        exact utf8Size_ofNat_small
          (by have := Nat.mod_lt (r.next.1) (show 0 < 26 by omega); omega)
      · split
        · rw [show (r.genRangeIncl 48 57).1 = 48 + r.next.1 % 10 from rfl]
          exact utf8Size_ofNat_small
            (by have := Nat.mod_lt (r.next.1) (show 0 < 10 by omega); omega)
        · rw [show (r.genRangeIncl 97 122).1 = 97 + r.next.1 % 26 from rfl]
          exact utf8Size_ofNat_small
            (by have := Nat.mod_lt (r.next.1) (show 0 < 26 by omega); omega)

theorem generateLoop_fuel_irrel (d : StringDef) :
    ∀ (fuel1 fuel2 : Nat) (r : Randomizer) (acc : List Char) (fb : Bool),
      d.length ≤ utf8Len acc + fuel1 → d.length ≤ utf8Len acc + fuel2 →
      generateLoop d fuel1 r acc fb = generateLoop d fuel2 r acc fb := by
  intro fuel1
  induction fuel1 with
  | zero =>
    intro fuel2 r acc fb h1 h2
    cases fuel2 with
    | zero => rfl
    | succ m =>
      show (acc, fb, r) = generateLoop d (m + 1) r acc fb
      rw [generateLoop, if_neg (by omega)]
  | succ n ih =>
    intro fuel2 r acc fb h1 h2
    cases fuel2 with
    | zero =>
      show generateLoop d (n + 1) r acc fb = (acc, fb, r)
      rw [generateLoop, if_neg (by omega)]
    | succ m =>
      rw [generateLoop, generateLoop]
      by_cases hg : utf8Len acc < d.length
      · rw [if_pos hg, if_pos hg]
        apply ih
        · rw [utf8Len_append]
          have := Char.utf8Size_pos (genChar d (r.genRangeExcl 0 100).1 (r.genRangeExcl 0 100).2).1
          omega
        · rw [utf8Len_append]
          have := Char.utf8Size_pos (genChar d (r.genRangeExcl 0 100).1 (r.genRangeExcl 0 100).2).1
          omega
      · rw [if_neg hg, if_neg hg]

theorem generateLoop_lower (d : StringDef) :
    ∀ (fuel : Nat) (r : Randomizer) (acc : List Char) (fb : Bool),
      d.length ≤ utf8Len acc + fuel →
      d.length ≤ utf8Len (generateLoop d fuel r acc fb).1 := by
  intro fuel
  induction fuel with
  | zero =>
    intro r acc fb h
    show d.length ≤ utf8Len acc
    omega
  | succ n ih =>
    intro r acc fb h
    rw [generateLoop]
    by_cases hg : utf8Len acc < d.length
    · rw [if_pos hg]
      apply ih
      rw [utf8Len_append]
      have := Char.utf8Size_pos (genChar d (r.genRangeExcl 0 100).1 (r.genRangeExcl 0 100).2).1
      omega
    · rw [if_neg hg]
      show d.length ≤ utf8Len acc
      omega

theorem generateLoop_upper (d : StringDef) :
    ∀ (fuel : Nat) (r : Randomizer) (acc : List Char) (fb : Bool),
      utf8Len acc ≤ d.length + 3 →
      utf8Len (generateLoop d fuel r acc fb).1 ≤ d.length + 3 := by
  intro fuel
  induction fuel with
  | zero =>
    intro r acc fb h
    simpa [generateLoop] using h
  | succ n ih =>
    intro r acc fb h
    rw [generateLoop]
    by_cases hg : utf8Len acc < d.length
    · rw [if_pos hg]
      apply ih
      rw [utf8Len_append]
      have := genChar_utf8Size_le d (r.genRangeExcl 0 100).1 (r.genRangeExcl 0 100).2
      omega
    · rw [if_neg hg]
      exact h

theorem generateLoop_ascii_exact (d : StringDef) (hu : d.include_unicode = false) :
    ∀ (fuel : Nat) (r : Randomizer) (acc : List Char) (fb : Bool),
      utf8Len acc = acc.length → utf8Len acc ≤ d.length →
      d.length ≤ utf8Len acc + fuel →
      (generateLoop d fuel r acc fb).1.length = d.length := by
  intro fuel
  induction fuel with
  | zero =>
    intro r acc fb hchar hle hfuel
    show acc.length = d.length
    omega
  | succ n ih =>
    intro r acc fb hchar hle hfuel
    rw [generateLoop]
    by_cases hg : utf8Len acc < d.length
    · rw [if_pos hg]
      apply ih
      · rw [utf8Len_append, genChar_ascii d _ _ hu]
        simp [hchar]
      · rw [utf8Len_append, genChar_ascii d _ _ hu]
        omega
      · rw [utf8Len_append, genChar_ascii d _ _ hu]
        omega
    · rw [if_neg hg]
      show acc.length = d.length
      omega

theorem generateLoop_flag (d : StringDef) :
    ∀ (fuel : Nat) (r : Randomizer) (acc : List Char) (fb : Bool),
      (generateLoop d fuel r acc fb).2.1 = fb := by
  intro fuel
  induction fuel with
  | zero => intro r acc fb; rfl
  | succ n ih =>
    intro r acc fb
    rw [generateLoop]
    by_cases hg : utf8Len acc < d.length
    · rw [if_pos hg, ih, genChar_no_fallback, Bool.or_false]
    · rw [if_neg hg]

/-- Claim C10: every code point drawn in the unicode branch lies in
`0x1F600..0x1F64F` and is a valid Unicode scalar value, so the
placeholder branch pushing `'?'` is unreachable: whenever unicode
characters are enabled (indeed, always), the instrumentation flag of
`StringDef::generate` stays `false`. -/
theorem generate_no_placeholder (d : StringDef) (r : Randomizer)
    (_hu : d.include_unicode = true) : (d.generateI r).2.1 = false :=
  generateLoop_flag d d.length r [] false

/-- Witness for `generate_no_placeholder` at a concrete configuration
and state. -/
theorem generate_no_placeholder_witness :
    cexStringDef.include_unicode = true ∧ (cexStringDef.generateI zeroRng).2.1 = false :=
  ⟨rfl, generate_no_placeholder cexStringDef zeroRng rfl⟩

/-- Counterexample to claim C1 as stated: with unicode enabled, the
`while result.len() < length` loop of `StringDef::generate` measures the
UTF-8 byte length, so for the requested length 2 a first drawn emoji
(4 bytes) ends the loop after one character: the character count is 1,
not 2. -/
theorem generate_char_length_cex :
    ¬ (cexStringDef.generate zeroRng).1.length = cexStringDef.length := by decide

/-- Claim C1 (amended): the loop guard of `StringDef::generate` compares
the UTF-8 byte length of the accumulated string against `length`, so the
generated string's byte length is at least `length` and overshoots it by
at most 3 (one character of at most 4 bytes past the guard); with the
unicode class disabled every generated character is 1 byte, and then the
character count equals `length` exactly. -/
theorem generate_length (d : StringDef) (r : Randomizer) :
    d.length ≤ utf8Len (d.generate r).1 ∧
      utf8Len (d.generate r).1 ≤ d.length + 3 ∧
      (d.include_unicode = false → (d.generate r).1.length = d.length) := by
  refine ⟨?_, ?_, ?_⟩
  · exact generateLoop_lower d d.length r [] false (by simp [utf8Len])
  · exact generateLoop_upper d d.length r [] false (by simp [utf8Len])
  · intro hu
    exact generateLoop_ascii_exact d hu d.length r [] false rfl (by simp [utf8Len])
      (by simp [utf8Len])

/-- Witness for `generate_length` at the default configuration and a
concrete state. -/
theorem generate_length_witness :
    StringDef.default.include_unicode = false ∧
      (StringDef.default.generate zeroRng).1.length = StringDef.default.length :=
  ⟨rfl, (generate_length StringDef.default zeroRng).2.2 rfl⟩

/-- Claim C2: in the Judged phase, an erring success predicate is fatal,
producing `StepError` of kind `Plan` that embeds the raw `Output` of the
step's execution, while a `false` verdict only skips the step's
remaining phases (no check or test event for this step) and continues
the run with the next steps. -/
theorem judged_phase (ex : String → Except Error Output) (i : Nat) (s : Step)
    (rest : List Step) (r r1 r2 : Randomizer) (p1 p2 : Plan) (out : Output)
    (hp1 : s.plan r = .ok (p1, r1)) (hsetup : s.setup = .ok ())
    (hp2 : s.plan r1 = .ok (p2, r2)) (hex : ex p2.command = .ok out) :
    (∀ msg, s.is_success out p1.ctx = .error msg →
      runSteps ex i r (s :: rest) =
        (.error (.StepError .Plan msg out), r2,
          [.planReq i, .setupEv i, .planReq i, .execEv i p2.command])) ∧
    (s.is_success out p1.ctx = .ok false →
      runSteps ex i r (s :: rest) =
        ((runSteps ex (i + 1) r2 rest).1, (runSteps ex (i + 1) r2 rest).2.1,
          [.planReq i, .setupEv i, .planReq i, .execEv i p2.command, .judgeEv i false]
            ++ (runSteps ex (i + 1) r2 rest).2.2)) := by
  constructor
  · intro msg hmsg
    have hstep : runStep ex i s r =
        (.error (.StepError .Plan msg out), r2,
          [.planReq i, .setupEv i, .planReq i, .execEv i p2.command]) := by
      simp only [runStep, hp1, hsetup, hp2, hex, hmsg]
    simp only [runSteps, hstep]
  · intro hfalse
    have hstep : runStep ex i s r =
        (.ok (), r2,
          [.planReq i, .setupEv i, .planReq i, .execEv i p2.command, .judgeEv i false]) := by
      simp only [runStep, hp1, hsetup, hp2, hex, hfalse]
    simp only [runSteps, hstep]

/-- Witness for `judged_phase` at a concrete erring step. -/
theorem judged_phase_witness :
    runSteps exAllOk 0 zeroRng [judgeErrStep] =
      (.error (.StepError .Plan "bad judgment" okOut), zeroRng,
        [.planReq 0, .setupEv 0, .planReq 0, .execEv 0 "run"]) :=
  (judged_phase exAllOk 0 judgeErrStep [] zeroRng zeroRng zeroRng
    { id := "jerr", command := "run", ctx := none }
    { id := "jerr", command := "run", ctx := none } okOut rfl rfl rfl rfl).1
    "bad judgment" rfl

/-- Claim C5: after a `true` judgment, a supplied check (resp. test)
command is executed, and any exit status other than `Some(0)` is fatal:
the run returns `StepError` of kind `Check` (resp. `Test`) carrying that
command's output, and no later step contributes any event. -/
theorem check_test_fatal (ex : String → Except Error Output) (i : Nat) (s : Step)
    (rest : List Step) (r r1 r2 : Randomizer) (p1 p2 : Plan) (out : Output)
    (hp1 : s.plan r = .ok (p1, r1)) (hsetup : s.setup = .ok ())
    (hp2 : s.plan r1 = .ok (p2, r2)) (hex : ex p2.command = .ok out)
    (hj : s.is_success out p1.ctx = .ok true) :
    (∀ ccmd cout, s.run_check = some ccmd → ex ccmd = .ok cout →
      cout.status_code ≠ some 0 →
      runSteps ex i r (s :: rest) =
        (.error (.StepError .Check "check not finish with status code 0" cout), r2,
          [.planReq i, .setupEv i, .planReq i, .execEv i p2.command, .judgeEv i true,
            .checkEv i ccmd])) ∧
    (∀ tcmd tout, s.run_check = none → s.run_test = some tcmd → ex tcmd = .ok tout →
      tout.status_code ≠ some 0 →
      runSteps ex i r (s :: rest) =
        (.error (.StepError .Test "test command not finish with status code 0" tout), r2,
          [.planReq i, .setupEv i, .planReq i, .execEv i p2.command, .judgeEv i true,
            .testEv i tcmd])) := by
  constructor
  · intro ccmd cout hc hexc hcs
    have hstep : runStep ex i s r =
        (.error (.StepError .Check "check not finish with status code 0" cout), r2,
          [.planReq i, .setupEv i, .planReq i, .execEv i p2.command, .judgeEv i true,
            .checkEv i ccmd]) := by
      simp only [runStep, hp1, hsetup, hp2, hex, hj, cmdPhase, hc, hexc, if_neg hcs]
      rfl
    simp only [runSteps, hstep]
  · intro tcmd tout hc ht hext hts
    have hstep : runStep ex i s r =
        (.error (.StepError .Test "test command not finish with status code 0" tout), r2,
          [.planReq i, .setupEv i, .planReq i, .execEv i p2.command, .judgeEv i true,
            .testEv i tcmd]) := by
      simp only [runStep, hp1, hsetup, hp2, hex, hj, cmdPhase, hc, ht, hext, if_neg hts]
      rfl
    simp only [runSteps, hstep]

/-- Witness for `check_test_fatal` at a concrete step whose check
command exits 1. -/
theorem check_test_fatal_witness :
    runSteps exCheckFails 0 zeroRng [badCheckStep] =
      (.error (.StepError .Check "check not finish with status code 0" badOut), zeroRng,
        [.planReq 0, .setupEv 0, .planReq 0, .execEv 0 "run", .judgeEv 0 true,
          .checkEv 0 "badcheck"]) :=
  (check_test_fatal exCheckFails 0 badCheckStep [] zeroRng zeroRng zeroRng
    { id := "bad", command := "run", ctx := none }
    { id := "bad", command := "run", ctx := none } okOut rfl rfl rfl rfl rfl).1
    "badcheck" badOut rfl rfl (by decide)

/-- Counterexample to claim C4 as stated: in the execution loop of
`Runner::run` the first plan request of a step strictly precedes the
setup call (src/runner.rs requests a plan at line 92 and calls setup at
line 98), so setup is not invoked before the step's first plan request. -/
theorem step_order_cex :
    (runStep exAllOk 0 demoStep zeroRng).2.2 =
      [.planReq 0, .setupEv 0, .planReq 0, .execEv 0 "run", .judgeEv 0 true,
        .checkEv 0 "check", .testEv 0 "test"] ∧
      List.findIdx (fun e => e == Event.planReq 0) (runStep exAllOk 0 demoStep zeroRng).2.2 <
        List.findIdx (fun e => e == Event.setupEv 0) (runStep exAllOk 0 demoStep zeroRng).2.2 := by
  constructor
  · rfl
  · decide

/-- Claim C4 (amended): per step the phases occur in the strict order
first plan request, setup, second plan request, execution of the planned
command, judgment, then optionally check and optionally test, with no
branching back; setup runs after the step's first plan request of the
loop and before the second. -/
theorem step_phase_order (ex : String → Except Error Output) (i : Nat) (s : Step)
    (r r1 r2 : Randomizer) (p1 p2 : Plan) (out : Output) (ccmd tcmd : String)
    (cout tout : Output)
    (hp1 : s.plan r = .ok (p1, r1)) (hsetup : s.setup = .ok ())
    (hp2 : s.plan r1 = .ok (p2, r2)) (hex : ex p2.command = .ok out)
    (hj : s.is_success out p1.ctx = .ok true)
    (hc : s.run_check = some ccmd) (hexc : ex ccmd = .ok cout)
    (hcs : cout.status_code = some 0)
    (ht : s.run_test = some tcmd) (hext : ex tcmd = .ok tout)
    (hts : tout.status_code = some 0) :
    runStep ex i s r =
      (.ok (), r2,
        [.planReq i, .setupEv i, .planReq i, .execEv i p2.command, .judgeEv i true,
          .checkEv i ccmd, .testEv i tcmd]) := by
  simp only [runStep, hp1, hsetup, hp2, hex, hj, cmdPhase, hc, hexc, if_pos hcs, ht, hext,
    if_pos hts]
  rfl

/-- Witness for `step_phase_order` at a concrete full-phase step. -/
theorem step_phase_order_witness :
    runStep exAllOk 0 demoStep zeroRng =
      (.ok (), zeroRng,
        [.planReq 0, .setupEv 0, .planReq 0, .execEv 0 "run", .judgeEv 0 true,
          .checkEv 0 "check", .testEv 0 "test"]) :=
  step_phase_order exAllOk 0 demoStep zeroRng zeroRng zeroRng
    { id := "demo", command := "run", ctx := none }
    { id := "demo", command := "run", ctx := none } okOut "check" "test" okOut okOut
    rfl rfl rfl rfl rfl rfl rfl rfl rfl rfl rfl

theorem cmdPhase_count_planReq (ex : String → Except Error Output) (_i j : Nat)
    (mkEv : String → Event) (k : Kind) (d : String) (cmd? : Option String)
    (hne : ∀ c, mkEv c ≠ Event.planReq j) :
    List.count (Event.planReq j) (cmdPhase ex mkEv k d cmd?).2 = 0 := by
  cases cmd? with
  | none => rfl
  | some c =>
    have hbe : (mkEv c == Event.planReq j) = false := by
      rw [beq_eq_false_iff_ne]
      exact hne c
    cases hx : ex c with
    | error e => simp [cmdPhase, hx, List.count_cons, hbe]
    | ok out =>
      by_cases hs : out.status_code = some 0
      · simp [cmdPhase, hx, hs, List.count_cons, hbe]
      · simp [cmdPhase, hx, hs, List.count_cons, hbe]

theorem runStep_count_planReq (ex : String → Except Error Output) (i : Nat) (s : Step)
    (r : Randomizer) (h : (runStep ex i s r).1 = .ok ()) (j : Nat) :
    List.count (Event.planReq j) (runStep ex i s r).2.2 = if j = i then 2 else 0 := by
  have hcount1 : ∀ b : Bool, ∀ cmd : String,
      List.count (Event.planReq j)
        [Event.planReq i, Event.setupEv i, Event.planReq i, Event.execEv i cmd,
          Event.judgeEv i b] = if j = i then 2 else 0 := by
    intro b cmd
    by_cases hij : j = i
    · subst hij
      simp [List.count_cons]
    · have hne : (Event.planReq i == Event.planReq j) = false := by
        rw [beq_eq_false_iff_ne]
        intro hcon
        exact hij (Event.planReq.inj hcon).symm
      simp [List.count_cons, hne, hij]
  cases hp1 : s.plan r with
  | error e => simp [runStep, hp1] at h
  | ok q1 =>
    obtain ⟨p1, r1⟩ := q1
    cases hst : s.setup with
    | error e => simp [runStep, hp1, hst] at h
    | ok u =>
      cases hp2 : s.plan r1 with
      | error e => simp [runStep, hp1, hst, hp2] at h
      | ok q2 =>
        obtain ⟨p2, r2⟩ := q2
        cases hex : ex p2.command with
        | error e => simp [runStep, hp1, hst, hp2, hex] at h
        | ok out =>
          cases hj : s.is_success out p1.ctx with
          | error msg => simp [runStep, hp1, hst, hp2, hex, hj] at h
          | ok b =>
            cases b with
            | false =>
              simp only [runStep, hp1, hst, hp2, hex, hj]
              exact hcount1 false p2.command
            | true =>
              cases hch : (cmdPhase ex (Event.checkEv i) .Check
                  "check not finish with status code 0" s.run_check).1 with
              | error e => simp [runStep, hp1, hst, hp2, hex, hj, hch] at h
              | ok u2 =>
                simp only [runStep, hp1, hst, hp2, hex, hj, hch]
                rw [List.count_append, List.count_append]
                rw [cmdPhase_count_planReq ex i j _ _ _ _ (fun c => by simp)]
                rw [cmdPhase_count_planReq ex i j _ _ _ _ (fun c => by simp)]
                rw [hcount1 true p2.command]
                omega

theorem runSteps_count_planReq (ex : String → Except Error Output) :
    ∀ (steps : List Step) (i0 : Nat) (r : Randomizer),
      (runSteps ex i0 r steps).1 = .ok () → ∀ j,
      List.count (Event.planReq j) (runSteps ex i0 r steps).2.2 =
        if i0 ≤ j ∧ j < i0 + steps.length then 2 else 0 := by
  intro steps
  induction steps with
  | nil =>
    intro i0 r h j
    show List.count (Event.planReq j) [] = _
    rw [List.count_nil, if_neg (by simp only [List.length_nil]; omega)]
  | cons s rest ih =>
    intro i0 r h j
    cases hstep : runStep ex i0 s r with
    | mk res rest1 =>
      obtain ⟨r1, tr⟩ := rest1
      cases res with
      | error e => simp [runSteps, hstep] at h
      | ok u =>
        have hok : (runStep ex i0 s r).1 = .ok () := by rw [hstep]
        have h1 := runStep_count_planReq ex i0 s r hok j
        rw [hstep] at h1
        simp only at h1
        have hrest : (runSteps ex (i0 + 1) r1 rest).1 = .ok () := by
          have := h
          simp only [runSteps, hstep] at this
          exact this
        have h2 := ih (i0 + 1) r1 hrest j
        simp only [runSteps, hstep, List.count_append]
        rw [h1, h2]
        simp only [List.length_cons]
        split_ifs <;> omega

theorem dumpPlan_count_planReq (ex : String → Except Error Output) :
    ∀ (steps : List Step) (i0 : Nat) (r : Randomizer),
      (∃ r1, (dumpPlan ex i0 r steps).1 = .ok r1) → ∀ j,
      List.count (Event.planReq j) (dumpPlan ex i0 r steps).2 =
        if i0 ≤ j ∧ j < i0 + steps.length then 1 else 0 := by
  intro steps
  induction steps with
  | nil =>
    intro i0 r h j
    show List.count (Event.planReq j) [] = _
    rw [List.count_nil, if_neg (by simp only [List.length_nil]; omega)]
  | cons s rest ih =>
    intro i0 r h j
    cases hp : s.plan r with
    | error e =>
      obtain ⟨r1, h⟩ := h
      simp [dumpPlan, hp] at h
    | ok q =>
      obtain ⟨p, r1⟩ := q
      have hrest : ∃ r2, (dumpPlan ex (i0 + 1) r1 rest).1 = .ok r2 := by
        obtain ⟨r2, h⟩ := h
        simp only [dumpPlan, hp] at h
        exact ⟨r2, h⟩
      have h2 := ih (i0 + 1) r1 hrest j
      simp only [dumpPlan, hp, List.count_cons, beq_iff_eq, Event.planReq.injEq]
      rw [h2]
      simp only [List.length_cons]
      split_ifs <;> omega

/-- Counterexample to claim C3 as stated: in a successful one-step run,
the step's plan operation is requested three times (once by the plan
dump and twice by the execution loop: src/runner.rs line 92 for the
step's id and context and line 101 for execution), not twice. -/
theorem plan_request_count_cex :
    ¬ List.count (Event.planReq 0) (runnerRun exAllOk [demoStep] zeroRng).2 = 2 := by
  decide

/-- Claim C3 (amended): in a run of `Runner::run` that completes without
a fatal error, each step's plan operation is requested exactly three
times: once by the plan dump and twice by the execution loop (once for
the step's displayed id and judgment context, once for execution). -/
theorem plan_request_count (ex : String → Except Error Output) (steps : List Step)
    (r : Randomizer) (hok : (runnerRun ex steps r).1 = .ok ()) :
    ∀ i < steps.length, List.count (Event.planReq i) (runnerRun ex steps r).2 = 3 := by
  intro i hi
  cases hd : dumpPlan ex 0 r steps with
  | mk dres dtr =>
    cases dres with
    | error e => simp [runnerRun, hd] at hok
    | ok r1 =>
      have hloop : (runSteps ex 0 r1 steps).1 = .ok () := by
        simpa [runnerRun, hd] using hok
      have h1 := dumpPlan_count_planReq ex steps 0 r ⟨r1, by rw [hd]⟩ i
      rw [hd] at h1
      simp only at h1
      have h2 := runSteps_count_planReq ex steps 0 r1 hloop i
      simp only [runnerRun, hd, List.count_append]
      rw [h1, h2, if_pos (by omega), if_pos (by omega)]

/-- Witness for `plan_request_count` at a concrete successful run. -/
theorem plan_request_count_witness :
    List.count (Event.planReq 0) (runnerRun exAllOk [demoStep] zeroRng).2 = 3 :=
  plan_request_count exAllOk [demoStep] zeroRng rfl 0 (by decide)
